import Mathlib

/-!
Verification of the boids simulation core against its specification.

The source is a paper.js flocking simulation.  The relevant code is the
`Boid` class (steering forces, velocity update, border wrap), the
`Obstacle` class and the `Runner` (construction and per-frame loop).
Vectors are embedded as pairs of real numbers; paper.js point operations
(`add`, `subtract`, `multiply` by a scalar, `divide` by a scalar, `dot`,
`length`, the `length` setter and `normalize`) are translated below with
paper.js's documented zero-vector behaviour.
-/

namespace Boids

open scoped Classical

noncomputable section

/-- A 2D vector, mirroring a paper.js `Point`. -/
structure Vec where
  x : ℝ
  y : ℝ

/-- The zero point `new Point()`. -/
def Vec.zero : Vec := ⟨0, 0⟩

/-- paper.js `Point.add`. -/
def Vec.add (v w : Vec) : Vec := ⟨v.x + w.x, v.y + w.y⟩

/-- paper.js `Point.subtract`. -/
def Vec.sub (v w : Vec) : Vec := ⟨v.x - w.x, v.y - w.y⟩

/-- paper.js `Point.multiply` by a scalar. -/
def Vec.smul (v : Vec) (k : ℝ) : Vec := ⟨v.x * k, v.y * k⟩

/-- paper.js `Point.divide` by a scalar. -/
def Vec.divide (v : Vec) (k : ℝ) : Vec := ⟨v.x / k, v.y / k⟩

/-- paper.js `Point.dot`. -/
def Vec.dot (v w : Vec) : ℝ := v.x * w.x + v.y * w.y

/-- paper.js `Point.getLength`: the Euclidean norm. -/
def Vec.length (v : Vec) : ℝ := Real.sqrt (v.x ^ 2 + v.y ^ 2)

/-- paper.js `Point.setLength` (the `p.length = L` setter): a zero point is
set from its cached angle, which defaults to `0`, giving `(L, 0)`; a nonzero
point is scaled by `L / length`. -/
def Vec.withLength (v : Vec) (L : ℝ) : Vec :=
  if v.length = 0 then ⟨L, 0⟩ else v.smul (L / v.length)

/-- paper.js `Point.normalize()` (no argument, target length 1): a zero point
is scaled by `0`, so it stays the zero point. -/
def Vec.normalize (v : Vec) : Vec :=
  if v.length = 0 then v.smul 0 else v.smul (1 / v.length)

lemma Vec.length_nonneg (v : Vec) : 0 ≤ v.length := Real.sqrt_nonneg _

lemma Vec.length_eq_zero_iff (v : Vec) : v.length = 0 ↔ v = Vec.zero := by
  unfold Vec.length Vec.zero
  rw [Real.sqrt_eq_zero']
  constructor
  · intro h
    have hx : v.x ^ 2 + v.y ^ 2 = 0 := by nlinarith [sq_nonneg v.x, sq_nonneg v.y]
    have hx2 : v.x = 0 := by nlinarith [sq_nonneg v.x, sq_nonneg v.y]
    have hy2 : v.y = 0 := by nlinarith [sq_nonneg v.x, sq_nonneg v.y]
    cases v
    simp_all
  · intro h
    rw [h]
    norm_num

lemma Vec.length_zero_val : Vec.zero.length = 0 := by
  rw [Vec.length_eq_zero_iff]

lemma Vec.length_smul (v : Vec) (k : ℝ) : (v.smul k).length = |k| * v.length := by
  unfold Vec.length Vec.smul
  have h : (v.x * k) ^ 2 + (v.y * k) ^ 2 = k ^ 2 * (v.x ^ 2 + v.y ^ 2) := by ring
  rw [h, Real.sqrt_mul (sq_nonneg k), Real.sqrt_sq_eq_abs]

lemma Vec.smul_zero_k (v : Vec) : v.smul 0 = Vec.zero := by
  simp [Vec.smul, Vec.zero]

lemma Vec.smul_one (v : Vec) : v.smul 1 = v := by
  simp [Vec.smul]

lemma Vec.smul_smul (v : Vec) (a b : ℝ) : (v.smul a).smul b = v.smul (a * b) := by
  simp [Vec.smul, mul_assoc]

lemma Vec.add_zero_vec (v : Vec) : v.add Vec.zero = v := by
  simp [Vec.add, Vec.zero]

lemma Vec.zero_add_vec (v : Vec) : Vec.zero.add v = v := by
  simp [Vec.add, Vec.zero]

lemma Vec.add_assoc_vec (u v w : Vec) : (u.add v).add w = u.add (v.add w) := by
  simp [Vec.add, add_assoc]

/-- Length of the result of the `length` setter, on a nonzero point with a
nonnegative target length. -/
lemma Vec.length_withLength (v : Vec) (L : ℝ) (hv : v.length ≠ 0) (hL : 0 ≤ L) :
    (v.withLength L).length = L := by
  unfold Vec.withLength
  rw [if_neg hv, Vec.length_smul]
  have hpos : 0 < v.length := lt_of_le_of_ne v.length_nonneg (Ne.symm hv)
  rw [abs_div, abs_of_nonneg hL, abs_of_pos hpos]
  field_simp

/-- Evaluation helper: the square root of a product of a nonnegative real
with itself. -/
lemma sqrt_eval (a b : ℝ) (ha : 0 ≤ a) (h : a * a = b) : Real.sqrt b = a := by
  rw [← h, Real.sqrt_mul_self ha]

/-- paper.js `Point.getAngle` in degrees, as set into `rotation` and the fill
hue by `Boid.update`. -/
def Vec.angle (v : Vec) : ℝ := Complex.arg ⟨v.x, v.y⟩ * (180 / Real.pi)

/-- The four steering weights `weights["cohesion"|"avoidance"|"following"|
"obstacles"]["data"]` of a boid. -/
structure Weights where
  cohesion : ℝ
  avoidance : ℝ
  following : ℝ
  obstacles : ℝ

/-- A boid: its path instance's mutable state (`position`, `rotation`, the
fill `hue`) together with `velocity` and the tuning parameters stored by the
constructor.  JavaScript compares boids by object identity (`boids[i] !=
this`); the `id` field stands for that identity, and every boid created by
the runner gets a distinct `id`. -/
structure Boid where
  id : ℕ
  position : Vec
  velocity : Vec
  rotation : ℝ
  hue : ℝ
  weights : Weights
  followRadius : ℝ
  avoidRadius : ℝ
  maxSpeed : ℝ
  maxForce : ℝ

instance : Inhabited Boid :=
  ⟨⟨0, Vec.zero, Vec.zero, 0, 0, ⟨0, 0, 0, 0⟩, 0, 0, 0, 0⟩⟩

/-- An obstacle: a fixed position and the radius within which it deflects
boids. -/
structure Obstacle where
  position : Vec
  affectRadius : ℝ

/-- `Boid.getSteer`: given a desired velocity, the required steering force.
A zero-length desired vector yields no steer; otherwise the desired vector is
set to length `maxSpeed`, the current velocity is subtracted, and the result
is set to length `maxForce` whenever it is longer than that. -/
def Boid.getSteer (b : Boid) (desired : Vec) : Vec :=
  if desired.length = 0 then Vec.zero
  else if ((desired.withLength b.maxSpeed).sub b.velocity).length > b.maxForce then
    ((desired.withLength b.maxSpeed).sub b.velocity).withLength b.maxForce
  else
    (desired.withLength b.maxSpeed).sub b.velocity

/-- The `for (let i in boids)` accumulation of `Boid.getCohesionVector`:
positions of boids within `followRadius` are summed (no self-exclusion) and
counted. -/
def cohesionLoop (b : Boid) : List Boid → Vec → ℕ → Vec × ℕ
  | [], com, n => (com, n)
  | o :: rest, com, n =>
      if (o.position.sub b.position).length < b.followRadius then
        cohesionLoop b rest (com.add o.position) (n + 1)
      else
        cohesionLoop b rest com n

/-- `Boid.getCohesionVector`: steer toward the centre of mass of the boids
within `followRadius`; the accumulator is divided by the count only when the
count is positive. -/
def Boid.getCohesionVector (b : Boid) (boids : List Boid) : Vec :=
  b.getSteer
    ((if (cohesionLoop b boids Vec.zero 0).2 > 0 then
        (cohesionLoop b boids Vec.zero 0).1.divide
          (((cohesionLoop b boids Vec.zero 0).2 : ℕ) : ℝ)
      else (cohesionLoop b boids Vec.zero 0).1).sub b.position)

/-- The accumulation of `Boid.getAvoidanceVector`: for every other boid
within `avoidRadius`, subtract the normalized displacement divided by the
displacement's length. -/
def avoidanceLoop (b : Boid) : List Boid → Vec → Vec
  | [], acc => acc
  | o :: rest, acc =>
      if o.id ≠ b.id ∧ (o.position.sub b.position).length < b.avoidRadius then
        avoidanceLoop b rest
          (acc.sub (((o.position.sub b.position).normalize).divide
            (o.position.sub b.position).length))
      else
        avoidanceLoop b rest acc

/-- `Boid.getAvoidanceVector`: steer along the accumulated inverse-distance
repulsion from other boids within `avoidRadius`. -/
def Boid.getAvoidanceVector (b : Boid) (boids : List Boid) : Vec :=
  b.getSteer (avoidanceLoop b boids Vec.zero)

/-- The accumulation of `Boid.getFollowVector`: velocities of other boids
within `followRadius` are summed and counted.  Note that the source computes
`avgVelocity.divide(numBoidsSeen)` without assigning the result, so the sum,
not the average, reaches `getSteer`. -/
def followLoop (b : Boid) : List Boid → Vec → ℕ → Vec × ℕ
  | [], acc, n => (acc, n)
  | o :: rest, acc, n =>
      if o.id ≠ b.id ∧ (o.position.sub b.position).length < b.followRadius then
        followLoop b rest (acc.add o.velocity) (n + 1)
      else
        followLoop b rest acc n

/-- `Boid.getFollowVector`: steer toward the accumulated velocity of other
boids within `followRadius`. -/
def Boid.getFollowVector (b : Boid) (boids : List Boid) : Vec :=
  b.getSteer (followLoop b boids Vec.zero 0).1

/-- The orthogonal component of the displacement toward an obstacle relative
to the boid's velocity direction, as computed inside
`Boid.getObstacleVector`. -/
def Boid.perpOffset (b : Boid) (o : Obstacle) : Vec :=
  (o.position.sub b.position).sub (b.velocity.smul
    (((o.position.sub b.position).dot b.velocity) /
      (b.velocity.length * b.velocity.length)))

/-- The accumulation of `Boid.getObstacleVector`: track the smallest
displacement distance seen so far (initialised to `99999999999`) and the
negated perpendicular offset of the obstacle achieving it, among obstacles
whose perpendicular offset is shorter than their `affectRadius`. -/
def obstacleLoop (b : Boid) : List Obstacle → ℝ → Vec → ℝ × Vec
  | [], cd, ov => (cd, ov)
  | o :: rest, cd, ov =>
      if (b.perpOffset o).length < o.affectRadius then
        if (o.position.sub b.position).length < cd then
          obstacleLoop b rest (o.position.sub b.position).length
            ((b.perpOffset o).smul (-1))
        else
          obstacleLoop b rest cd ov
      else
        obstacleLoop b rest cd ov

/-- `Boid.getObstacleVector`: the negated perpendicular offset of the closest
obstacle hit by the velocity hitscan, normalized when nonzero; it is not fed
through `getSteer`. -/
def Boid.getObstacleVector (b : Boid) (obstacles : List Obstacle) : Vec :=
  if (obstacleLoop b obstacles 99999999999 Vec.zero).2.length > 0 then
    (obstacleLoop b obstacles 99999999999 Vec.zero).2.normalize
  else
    (obstacleLoop b obstacles 99999999999 Vec.zero).2

/-- The velocity reached by the five `applyForce` calls of
`Boid.updateVelocity`, before the speed clamp: the current velocity plus the
four weighted force vectors plus the noise term.  The random point drawn by
`Point.random()` is passed in as `rand`; the source turns it into noise via
`rand.subtract(new Point(.5, .5)).multiply(2 * .1)`. -/
def Boid.newVelocityRaw (b : Boid) (boids : List Boid) (obstacles : List Obstacle)
    (rand : Vec) : Vec :=
  ((((b.velocity.add
      ((b.getCohesionVector boids).smul b.weights.cohesion)).add
      ((b.getAvoidanceVector boids).smul b.weights.avoidance)).add
      ((b.getFollowVector boids).smul b.weights.following)).add
      ((b.getObstacleVector obstacles).smul b.weights.obstacles)).add
      ((rand.sub ⟨0.5, 0.5⟩).smul (2 * 0.1))

/-- `Boid.updateVelocity`: apply the four weighted forces and the noise term
to the velocity, then set the velocity's length to `maxSpeed` whenever it is
longer than that. -/
def Boid.updateVelocity (b : Boid) (boids : List Boid) (obstacles : List Obstacle)
    (rand : Vec) : Boid :=
  { b with velocity :=
      if (b.newVelocityRaw boids obstacles rand).length > b.maxSpeed then
        (b.newVelocityRaw boids obstacles rand).withLength b.maxSpeed
      else
        b.newVelocityRaw boids obstacles rand }

/-- `Boid.react`: the force-computation half of the tick; it delegates to
`updateVelocity`. -/
def Boid.react (b : Boid) (boids : List Boid) (obstacles : List Obstacle)
    (rand : Vec) : Boid :=
  b.updateVelocity boids obstacles rand

/-- The per-axis wrap performed by `Boid.checkBorders` against the view of
size `w × h`: a coordinate strictly above the bound is reset to `0`, a
coordinate strictly below `0` is reset to the bound. -/
def wrapVec (p : Vec) (w h : ℝ) : Vec :=
  ⟨if p.x > w then 0 else if p.x < 0 then w else p.x,
   if p.y > h then 0 else if p.y < 0 then h else p.y⟩

/-- `Boid.checkBorders`: wrap the boid's position into the view. -/
def Boid.checkBorders (b : Boid) (w h : ℝ) : Boid :=
  { b with position := wrapVec b.position w h }

/-- `Boid.update`: the apply half of the tick; set the instance's rotation to
the velocity's angle, advance the position by the velocity, wrap at the
borders and recolour the instance from the velocity's angle. -/
def Boid.update (b : Boid) (w h : ℝ) : Boid :=
  let b1 := { b with rotation := b.velocity.angle }
  let b2 := { b1 with position := b1.position.add b1.velocity }
  let b3 := b2.checkBorders w h
  { b3 with hue := b3.velocity.angle }

/-- The react loop of `Runner.onFrame`: `for (let i in this.boids)
this.boids[i].react(this.boids, this.obstacles)`.  The boid at index `i` is
replaced, in place, by its reacted version computed against the current
(partially reacted) list; `k` counts the remaining iterations.  `rand i` is
the random point drawn during iteration `i`. -/
def seqReactGo (obstacles : List Obstacle) (rand : ℕ → Vec) :
    List Boid → ℕ → ℕ → List Boid
  | l, _, 0 => l
  | l, i, k + 1 =>
      seqReactGo obstacles rand
        (l.set i ((l.getD i default).react l obstacles (rand i))) (i + 1) k

/-- The complete react phase of `Runner.onFrame` over the whole boid list. -/
def seqReact (l : List Boid) (obstacles : List Obstacle) (rand : ℕ → Vec) :
    List Boid :=
  seqReactGo obstacles rand l 0 l.length

/-- Modelled from the spec's two-phase reference: every boid's force is
computed from the start-of-tick state `orig`, and only then is any boid
replaced. -/
def parReactGo (orig : List Boid) (obstacles : List Obstacle) (rand : ℕ → Vec) :
    List Boid → ℕ → List Boid
  | [], _ => []
  | b :: rest, i =>
      b.react orig obstacles (rand i) :: parReactGo orig obstacles rand rest (i + 1)

/-- Modelled from the spec's two-phase reference tick: all forces are read
from the pre-tick snapshot. -/
def parReact (l : List Boid) (obstacles : List Obstacle) (rand : ℕ → Vec) :
    List Boid :=
  parReactGo l obstacles rand l 0

/-- `Runner.onFrame`: the react loop over all boids followed by the update
loop over all boids (each `update` reads only the boid's own state, so the
update loop is a map). -/
def onFrame (l : List Boid) (obstacles : List Obstacle) (rand : ℕ → Vec)
    (w h : ℝ) : List Boid :=
  (seqReact l obstacles rand).map (fun b => b.update w h)

/-- The configuration read by `Runner`'s constructor out of the `parameters`
object. -/
structure Parameters where
  numBoids : ℤ
  maxSpeed : ℝ
  maxForce : ℝ
  obstacleAffectRadius : ℝ
  weights : Weights
  followRadius : ℝ
  avoidRadius : ℝ

/-- The simulation state owned by a `Runner`: the boid list and the
append-only obstacle list. -/
structure RunnerState where
  boids : List Boid
  obstacles : List Obstacle

/-- `Runner`'s constructor: `for (var i = 0; i < this.numBoids; i++)` pushes
a fresh boid at a random position with a random-heading velocity; no
parameter is validated, and the obstacle list starts empty.  `randPos i` and
`randVel i` are the random position and velocity drawn for boid `i`. -/
def Runner.init (p : Parameters) (randPos randVel : ℕ → Vec) : RunnerState :=
  { boids := (List.range p.numBoids.toNat).map (fun i =>
      { id := i
        position := randPos i
        velocity := randVel i
        rotation := 0
        hue := 0
        weights := p.weights
        followRadius := p.followRadius
        avoidRadius := p.avoidRadius
        maxSpeed := p.maxSpeed
        maxForce := p.maxForce })
    obstacles := [] }

/-- `Runner.onMouseDown`: append an obstacle at the clicked point with the
configured affect radius. -/
def Runner.onMouseDown (st : RunnerState) (p : Parameters) (point : Vec) :
    RunnerState :=
  { st with obstacles := st.obstacles ++ [⟨point, p.obstacleAffectRadius⟩] }

/-- Sum of a list of vectors. -/
def vecSum : List Vec → Vec
  | [] => Vec.zero
  | v :: rest => v.add (vecSum rest)

/-- The boids that qualify for the cohesion force of `b`: all boids whose
distance from `b` is strictly below `followRadius`, with no self-exclusion. -/
def cohesionNeighbors (b : Boid) : List Boid → List Boid
  | [] => []
  | o :: rest =>
      if (o.position.sub b.position).length < b.followRadius then
        o :: cohesionNeighbors b rest
      else
        cohesionNeighbors b rest

/-- The boids that qualify for the following force of `b`: other boids
(self excluded) whose distance from `b` is strictly below `followRadius`. -/
def followNeighbors (b : Boid) : List Boid → List Boid
  | [] => []
  | o :: rest =>
      if o.id ≠ b.id ∧ (o.position.sub b.position).length < b.followRadius then
        o :: followNeighbors b rest
      else
        followNeighbors b rest

/-- Modelled from the spec: the average velocity of the qualifying following
neighbors, the zero vector when none qualify. -/
def followAvg (b : Boid) (l : List Boid) : Vec :=
  if followNeighbors b l = [] then Vec.zero
  else (vecSum ((followNeighbors b l).map Boid.velocity)).divide
    ((followNeighbors b l).length : ℝ)

/-- An obstacle qualifies for deflecting `b` when the perpendicular offset is
strictly shorter than the obstacle's affect radius. -/
def hits (b : Boid) (o : Obstacle) : Prop :=
  (b.perpOffset o).length < o.affectRadius

/-- The displacement distance from `b` to an obstacle. -/
def obsDist (b : Boid) (o : Obstacle) : ℝ :=
  (o.position.sub b.position).length

lemma cohesionLoop_spec (b : Boid) :
    ∀ (l : List Boid) (com : Vec) (n : ℕ),
      cohesionLoop b l com n =
        (com.add (vecSum ((cohesionNeighbors b l).map Boid.position)),
         n + (cohesionNeighbors b l).length) := by
  intro l
  induction l with
  | nil => intro com n; simp [cohesionLoop, cohesionNeighbors, vecSum, Vec.add_zero_vec]
  | cons o rest ih =>
      intro com n
      by_cases hq : (o.position.sub b.position).length < b.followRadius
      · rw [cohesionLoop, if_pos hq, ih, cohesionNeighbors, if_pos hq]
        simp [vecSum, Vec.add_assoc_vec]
        omega
      · rw [cohesionLoop, if_neg hq, ih, cohesionNeighbors, if_neg hq]

lemma followLoop_spec (b : Boid) :
    ∀ (l : List Boid) (acc : Vec) (n : ℕ),
      followLoop b l acc n =
        (acc.add (vecSum ((followNeighbors b l).map Boid.velocity)),
         n + (followNeighbors b l).length) := by
  intro l
  induction l with
  | nil => intro acc n; simp [followLoop, followNeighbors, vecSum, Vec.add_zero_vec]
  | cons o rest ih =>
      intro acc n
      by_cases hq : o.id ≠ b.id ∧ (o.position.sub b.position).length < b.followRadius
      · rw [followLoop, if_pos hq, ih, followNeighbors, if_pos hq]
        simp [vecSum, Vec.add_assoc_vec]
        omega
      · rw [followLoop, if_neg hq, ih, followNeighbors, if_neg hq]

/-- Modelled from the spec: clamp a vector's length to at most `m` — a no-op
when the current length does not exceed `m`. -/
def clampLength (v : Vec) (m : ℝ) : Vec :=
  if v.length > m then v.withLength m else v

/-- Modelled from the spec's description of the steering function: a zero
desired vector returns zero exactly; otherwise the desired vector is rescaled
to length `maxSpeed`, the current velocity is subtracted and the result is
clamped to length at most `maxForce`. -/
def steerSpec (b : Boid) (desired : Vec) : Vec :=
  if desired = Vec.zero then Vec.zero
  else clampLength ((desired.withLength b.maxSpeed).sub b.velocity) b.maxForce

/-- Claim C5: the steering function returns the zero vector on the zero
desired vector, and on any nonzero desired vector returns the desired vector
rescaled to length `maxSpeed`, minus the current velocity, with the result's
length clamped to at most `maxForce`. -/
theorem getSteer_matches_spec (b : Boid) :
    b.getSteer Vec.zero = Vec.zero ∧ ∀ d, b.getSteer d = steerSpec b d := by
  constructor
  · rw [Boid.getSteer, if_pos Vec.length_zero_val]
  · intro d
    by_cases hd : d = Vec.zero
    · subst hd
      rw [Boid.getSteer, if_pos Vec.length_zero_val, steerSpec, if_pos rfl]
    · have hlen : d.length ≠ 0 := fun h => hd ((Vec.length_eq_zero_iff d).mp h)
      rw [Boid.getSteer, if_neg hlen, steerSpec, if_neg hd, clampLength]

/-- The boid used in the boundary-wrap counterexample: it sits exactly at the
right edge of a 100 × 100 view. -/
def cexBoidAtWidth : Boid :=
  { id := 0, position := ⟨100, 10⟩, velocity := Vec.zero, rotation := 0,
    hue := 0, weights := ⟨0, 0, 0, 0⟩, followRadius := 0, avoidRadius := 0,
    maxSpeed := 0, maxForce := 0 }

/-- Claim C4 counterexample: an agent at `(width, 10)` with `width = 100`
keeps `position.x == width` after the boundary pass — the comparison is
strict, so the claimed reset to `0` does not happen. -/
theorem wrap_at_width_cex :
    (cexBoidAtWidth.checkBorders 100 100).position.x = 100 ∧ (100 : ℝ) ≠ 0 := by
  constructor
  · simp [cexBoidAtWidth, Boid.checkBorders, wrapVec]
  · norm_num

/-- Claim C4 (amended): for a view with nonnegative bounds, the boundary
wrap maps a coordinate strictly beyond the upper bound to the lower bound `0`
and a coordinate below `0` to the upper bound, while a coordinate exactly at
the upper bound is left there. -/
theorem checkBorders_wrap_spec (b : Boid) (w h : ℝ) (hw : 0 ≤ w) (hh : 0 ≤ h) :
    (b.position.x > w → (b.checkBorders w h).position.x = 0) ∧
    (b.position.x = w → (b.checkBorders w h).position.x = w) ∧
    (b.position.x < 0 → (b.checkBorders w h).position.x = w) ∧
    (b.position.y > h → (b.checkBorders w h).position.y = 0) ∧
    (b.position.y = h → (b.checkBorders w h).position.y = h) ∧
    (b.position.y < 0 → (b.checkBorders w h).position.y = h) := by
  refine ⟨?_, ?_, ?_, ?_, ?_, ?_⟩ <;> intro hx <;>
    simp only [Boid.checkBorders, wrapVec] <;> split_ifs <;> first
      | rfl | linarith

/-- The boid used in the boundary-wrap witness: it sits at `(-5, 10)`. -/
def cexBoidNegX : Boid :=
  { id := 0, position := ⟨-5, 10⟩, velocity := Vec.zero, rotation := 0,
    hue := 0, weights := ⟨0, 0, 0, 0⟩, followRadius := 0, avoidRadius := 0,
    maxSpeed := 0, maxForce := 0 }

/-- Witness for claim C4: an agent at `(-5, 10)` has `position.x == width`
after the boundary pass. -/
theorem checkBorders_wrap_spec_witness :
    cexBoidNegX.position.x < 0 ∧
      (cexBoidNegX.checkBorders 100 100).position.x = 100 := by
  refine ⟨by norm_num [cexBoidNegX], ?_⟩
  exact (checkBorders_wrap_spec cexBoidNegX 100 100 (by norm_num)
    (by norm_num)).2.2.1 (by norm_num [cexBoidNegX])

lemma Boid.update_position (b : Boid) (w h : ℝ) :
    (b.update w h).position = wrapVec (b.position.add b.velocity) w h := rfl

lemma Boid.update_velocity_eq (b : Boid) (w h : ℝ) :
    (b.update w h).velocity = b.velocity := rfl

lemma Boid.update_maxSpeed (b : Boid) (w h : ℝ) :
    (b.update w h).maxSpeed = b.maxSpeed := rfl

/-- Each wrapped coordinate lands in the closed interval from `0` to the
bound. -/
lemma wrapVec_mem (p : Vec) (w h : ℝ) (hw : 0 ≤ w) (hh : 0 ≤ h) :
    0 ≤ (wrapVec p w h).x ∧ (wrapVec p w h).x ≤ w ∧
    0 ≤ (wrapVec p w h).y ∧ (wrapVec p w h).y ≤ h := by
  simp only [wrapVec]
  refine ⟨?_, ?_, ?_, ?_⟩ <;> split_ifs <;> linarith

/-- Claim C3 counterexample: after the apply phase an agent can sit exactly
at `position.x = width` (here an agent at `(-5, 10)` with zero velocity in a
100 × 100 view is wrapped to `x = 100`), so the claimed strict bound
`position.x < width` fails. -/
theorem position_upper_bound_cex :
    (cexBoidNegX.update 100 100).position.x = 100 ∧
      ¬ ((cexBoidNegX.update 100 100).position.x < 100) := by
  have h : (cexBoidNegX.update 100 100).position.x = 100 := by
    rw [Boid.update_position]
    norm_num [cexBoidNegX, Vec.add, Vec.zero, wrapVec]
  exact ⟨h, by rw [h]; norm_num⟩

/-- Claim C3 (amended): after the tick's apply phase every agent's position
satisfies `0 ≤ x ≤ width` and `0 ≤ y ≤ height` — the upper bound is
attainable because a negative coordinate is reset to the bound itself and a
coordinate exactly at the bound is kept; the wrap is applied unconditionally
and per axis. -/
theorem position_within_closed_domain (l : List Boid) (obs : List Obstacle)
    (rand : ℕ → Vec) (w h : ℝ) (hw : 0 ≤ w) (hh : 0 ≤ h) :
    ∀ b ∈ onFrame l obs rand w h,
      0 ≤ b.position.x ∧ b.position.x ≤ w ∧
      0 ≤ b.position.y ∧ b.position.y ≤ h := by
  intro b hb
  rcases List.mem_map.mp hb with ⟨b0, _, rfl⟩
  rw [Boid.update_position]
  exact wrapVec_mem _ w h hw hh

/-- A plain boid used in witnesses for the tick-level theorems. -/
def witnessBoid : Boid :=
  { id := 0, position := ⟨7, 9⟩, velocity := Vec.zero, rotation := 0,
    hue := 0, weights := ⟨0, 0, 0, 0⟩, followRadius := 1, avoidRadius := 1,
    maxSpeed := 5, maxForce := 1 }

/-- Witness for claim C3: in a concrete 100 × 100 view the amended bounds
hold after a tick over one boid. -/
theorem position_within_closed_domain_witness :
    (0 : ℝ) ≤ 100 ∧
      ∀ b ∈ onFrame [witnessBoid] [] (fun _ => Vec.zero) 100 100,
        0 ≤ b.position.x ∧ b.position.x ≤ 100 ∧
        0 ≤ b.position.y ∧ b.position.y ≤ 100 :=
  ⟨by norm_num,
   position_within_closed_domain [witnessBoid] [] (fun _ => Vec.zero) 100 100
     (by norm_num) (by norm_num)⟩

/-- Claim C10: the apply phase changes only the position and the rendering
attributes (rotation and fill hue); the velocity and every tuning parameter
are untouched, so the `maxSpeed` bound on the velocity established by the
react phase still holds at the end of the tick. -/
theorem update_changes_only_position_and_rendering (b : Boid) (w h : ℝ) :
    (b.update w h).velocity = b.velocity ∧
    (b.update w h).id = b.id ∧
    (b.update w h).weights = b.weights ∧
    (b.update w h).followRadius = b.followRadius ∧
    (b.update w h).avoidRadius = b.avoidRadius ∧
    (b.update w h).maxSpeed = b.maxSpeed ∧
    (b.update w h).maxForce = b.maxForce ∧
    (b.update w h).position = wrapVec (b.position.add b.velocity) w h ∧
    (b.update w h).rotation = b.velocity.angle ∧
    (b.update w h).hue = b.velocity.angle ∧
    (b.velocity.length ≤ b.maxSpeed →
      (b.update w h).velocity.length ≤ (b.update w h).maxSpeed) :=
  ⟨rfl, rfl, rfl, rfl, rfl, rfl, rfl, rfl, rfl, rfl, fun hb => hb⟩

/-- Witness for claim C10: for a concrete boid whose velocity satisfies the
`maxSpeed` bound, the bound still holds after `update`. -/
theorem update_changes_only_position_and_rendering_witness :
    witnessBoid.velocity.length ≤ witnessBoid.maxSpeed ∧
      (witnessBoid.update 100 100).velocity.length ≤
        (witnessBoid.update 100 100).maxSpeed := by
  have hb : witnessBoid.velocity.length ≤ witnessBoid.maxSpeed := by
    have hz : witnessBoid.velocity.length = 0 := Vec.length_zero_val
    rw [hz]
    norm_num [witnessBoid]
  exact ⟨hb,
    (update_changes_only_position_and_rendering witnessBoid 100 100).2.2.2.2.2.2.2.2.2.2 hb⟩

/-- Parameters with a negative boid count and a negative follow radius. -/
def cexParamsNeg : Parameters :=
  { numBoids := -5, maxSpeed := 6, maxForce := 0.03,
    obstacleAffectRadius := 100, weights := ⟨1, 4, 2, 0.4⟩,
    followRadius := -1, avoidRadius := 30 }

/-- Parameters with one boid and a negative follow radius. -/
def cexParamsNegRadius : Parameters :=
  { numBoids := 1, maxSpeed := 6, maxForce := 0.03,
    obstacleAffectRadius := 100, weights := ⟨1, 4, 2, 0.4⟩,
    followRadius := -1, avoidRadius := 30 }

/-- Claim C9 counterexample: the runner's constructor accepts a negative boid
count (producing a normal, empty simulation) and stores a negative radius on
a created boid unchanged — no configuration error is raised at construction
time. -/
theorem runner_init_accepts_invalid_cex :
    (Runner.init cexParamsNeg (fun _ => Vec.zero) (fun _ => Vec.zero)).boids
        = [] ∧
      ((Runner.init cexParamsNegRadius (fun _ => Vec.zero)
          (fun _ => Vec.zero)).boids.getD 0 default).followRadius = -1 := by
  constructor
  · simp [Runner.init, cexParamsNeg]
  · simp [Runner.init, cexParamsNegRadius, List.range_succ]

/-- Claim C9 (amended): construction performs no validation and never
rejects a configuration — a negative agent count simply makes the creation
loop run zero times, and the perception radii (negative or not) are stored on
every created agent exactly as supplied. -/
theorem runner_init_no_validation (p : Parameters) (rp rv : ℕ → Vec) :
    (p.numBoids < 0 → (Runner.init p rp rv).boids = []) ∧
    (∀ b ∈ (Runner.init p rp rv).boids,
      b.followRadius = p.followRadius ∧ b.avoidRadius = p.avoidRadius ∧
      b.maxSpeed = p.maxSpeed ∧ b.maxForce = p.maxForce) := by
  constructor
  · intro hneg
    have h0 : p.numBoids.toNat = 0 := Int.toNat_of_nonpos (le_of_lt hneg)
    simp [Runner.init, h0]
  · intro b hb
    simp only [Runner.init, List.mem_map] at hb
    rcases hb with ⟨i, _, rfl⟩
    exact ⟨rfl, rfl, rfl, rfl⟩

/-- Witness for claim C9: a concrete negative boid count is accepted and
yields the empty flock. -/
theorem runner_init_no_validation_witness :
    cexParamsNeg.numBoids < 0 ∧
      (Runner.init cexParamsNeg (fun _ => Vec.zero)
        (fun _ => Vec.zero)).boids = [] :=
  ⟨by norm_num [cexParamsNeg],
   (runner_init_no_validation cexParamsNeg (fun _ => Vec.zero)
      (fun _ => Vec.zero)).1 (by norm_num [cexParamsNeg])⟩

/-- Evaluation helper for concrete vector lengths. -/
lemma Vec.length_eval (x y L : ℝ) (hL : 0 ≤ L) (h : L * L = x ^ 2 + y ^ 2) :
    (Vec.mk x y).length = L := by
  unfold Vec.length
  exact sqrt_eval L _ hL h

/-- The steering force is invariant under positive rescaling of the desired
vector: `getSteer` keeps only the desired vector's direction. -/
lemma Boid.getSteer_smul (b : Boid) (d : Vec) (k : ℝ) (hk : 0 < k) :
    b.getSteer (d.smul k) = b.getSteer d := by
  have hlen : (d.smul k).length = k * d.length := by
    rw [Vec.length_smul, abs_of_pos hk]
  by_cases hd : d.length = 0
  · rw [Boid.getSteer, Boid.getSteer, if_pos hd,
      if_pos (show (d.smul k).length = 0 by rw [hlen, hd, mul_zero])]
  · have hkd : (d.smul k).length ≠ 0 := by
      rw [hlen]
      exact mul_ne_zero (ne_of_gt hk) hd
    have hw : (d.smul k).withLength b.maxSpeed = d.withLength b.maxSpeed := by
      rw [Vec.withLength, Vec.withLength, if_neg hkd, if_neg hd, hlen,
        Vec.smul_smul]
      congr 1
      field_simp
      ring
    rw [Boid.getSteer, Boid.getSteer, if_neg hkd, if_neg hd, hw]

/-- Claim C7: the following force equals the steering function applied to the
average velocity of the other agents within `followRadius` (self excluded,
strict comparison), and it vanishes when no neighbor qualifies.  The source
forgets to assign the result of `avgVelocity.divide(numBoidsSeen)`, so the
sum rather than the average reaches `getSteer`, but `getSteer` only keeps the
desired vector's direction, so the force is extensionally the claimed one. -/
theorem getFollowVector_matches_average (b : Boid) (l : List Boid) :
    b.getFollowVector l = b.getSteer (followAvg b l) ∧
    (followNeighbors b l = [] → b.getFollowVector l = Vec.zero) := by
  have hsum : b.getFollowVector l =
      b.getSteer (vecSum ((followNeighbors b l).map Boid.velocity)) := by
    rw [Boid.getFollowVector, followLoop_spec, Vec.zero_add_vec]
  have hzero : b.getSteer Vec.zero = Vec.zero := by
    rw [Boid.getSteer, if_pos Vec.length_zero_val]
  constructor
  · by_cases hne : followNeighbors b l = []
    · rw [hsum, followAvg, if_pos hne, hne]
      simp [vecSum]
    · rw [hsum, followAvg, if_neg hne]
      have hn : (0 : ℝ) < ((followNeighbors b l).length : ℝ) := by
        exact_mod_cast List.length_pos.mpr hne
      have hS : ((vecSum ((followNeighbors b l).map Boid.velocity)).divide
          ((followNeighbors b l).length : ℝ)).smul
          ((followNeighbors b l).length : ℝ) =
          vecSum ((followNeighbors b l).map Boid.velocity) := by
        simp only [Vec.divide, Vec.smul]
        have hne' : ((followNeighbors b l).length : ℝ) ≠ 0 := ne_of_gt hn
        field_simp
      conv_lhs => rw [← hS]
      exact Boid.getSteer_smul b _ _ hn
  · intro hne
    rw [hsum, hne]
    simpa [vecSum] using hzero

/-- Witness for claim C7: a lone boid has no qualifying neighbor (it is
excluded from its own follow scan) and its following force is zero. -/
theorem getFollowVector_matches_average_witness :
    followNeighbors witnessBoid [witnessBoid] = [] ∧
      witnessBoid.getFollowVector [witnessBoid] = Vec.zero := by
  have hne : followNeighbors witnessBoid [witnessBoid] = [] := by
    rw [followNeighbors, if_neg, followNeighbors]
    simp
  exact ⟨hne, (getFollowVector_matches_average witnessBoid [witnessBoid]).2 hne⟩

/-- Claim C6 (amended): the cohesion force is the steering function applied
to the average position of the qualifying agents (no self-exclusion, strict
comparison with `followRadius`) minus the agent's own position; when no agent
qualifies the accumulator stays the zero point, so the raw desired vector fed
to the steering function is the negation of the agent's position, not the
zero vector. -/
theorem getCohesionVector_characterization (b : Boid) (l : List Boid) :
    (cohesionNeighbors b l ≠ [] →
      b.getCohesionVector l = b.getSteer
        (((vecSum ((cohesionNeighbors b l).map Boid.position)).divide
          ((cohesionNeighbors b l).length : ℝ)).sub b.position)) ∧
    (cohesionNeighbors b l = [] →
      b.getCohesionVector l = b.getSteer (Vec.zero.sub b.position)) := by
  have hloop : cohesionLoop b l Vec.zero 0 =
      (vecSum ((cohesionNeighbors b l).map Boid.position),
       (cohesionNeighbors b l).length) := by
    rw [cohesionLoop_spec, Vec.zero_add_vec, Nat.zero_add]
  constructor
  · intro hne
    have hn : 0 < (cohesionNeighbors b l).length := List.length_pos.mpr hne
    rw [Boid.getCohesionVector, hloop]
    simp only [if_pos hn]
  · intro he
    rw [Boid.getCohesionVector, hloop, he]
    simp [vecSum]

/-- The boid used in the cohesion counterexample: it sits away from the
origin and can see nothing (`followRadius = 0`). -/
def cexBoidCohesion : Boid :=
  { id := 0, position := ⟨5, 0⟩, velocity := Vec.zero, rotation := 0, hue := 0,
    weights := ⟨0, 0, 0, 0⟩, followRadius := 0, avoidRadius := 0,
    maxSpeed := 1, maxForce := 1 }

/-- Claim C6 counterexample: with no qualifying agent the cohesion force is
`(-1, 0)`, not the zero vector that a zero raw desired vector would produce —
the zero accumulator minus the agent's position reaches `getSteer`, so the
raw desired vector is `-position`, which is nonzero away from the origin. -/
theorem cohesion_empty_desired_cex :
    cohesionNeighbors cexBoidCohesion [cexBoidCohesion] = [] ∧
      cexBoidCohesion.getCohesionVector [cexBoidCohesion] = ⟨-1, 0⟩ ∧
      (⟨-1, 0⟩ : Vec) ≠ Vec.zero ∧
      cexBoidCohesion.getSteer Vec.zero = Vec.zero := by
  have hdisp : cexBoidCohesion.position.sub cexBoidCohesion.position
      = Vec.zero := by
    simp [cexBoidCohesion, Vec.sub, Vec.zero]
  have hcond : ¬ ((cexBoidCohesion.position.sub cexBoidCohesion.position).length
      < cexBoidCohesion.followRadius) := by
    rw [hdisp, Vec.length_zero_val]
    norm_num [cexBoidCohesion]
  have hempty : cohesionNeighbors cexBoidCohesion [cexBoidCohesion] = [] := by
    rw [cohesionNeighbors, if_neg hcond, cohesionNeighbors]
  have hdes : Vec.zero.sub cexBoidCohesion.position = ⟨-5, 0⟩ := by
    simp [Vec.sub, Vec.zero, cexBoidCohesion]
  have hlen5 : (Vec.mk (-5) 0).length = 5 :=
    Vec.length_eval (-5) 0 5 (by norm_num) (by norm_num)
  have hsteer : cexBoidCohesion.getSteer ⟨-5, 0⟩ = ⟨-1, 0⟩ := by
    rw [Boid.getSteer]
    rw [if_neg (by rw [hlen5]; norm_num)]
    have hwl : (Vec.mk (-5) 0).withLength cexBoidCohesion.maxSpeed
        = ⟨-1, 0⟩ := by
      rw [Vec.withLength, if_neg (by rw [hlen5]; norm_num), hlen5]
      show Vec.mk ((-5) * (cexBoidCohesion.maxSpeed / 5))
        (0 * (cexBoidCohesion.maxSpeed / 5)) = Vec.mk (-1) 0
      norm_num [cexBoidCohesion]
    rw [hwl]
    have hsub : (Vec.mk (-1) 0).sub cexBoidCohesion.velocity = ⟨-1, 0⟩ := by
      simp [Vec.sub, cexBoidCohesion, Vec.zero]
    rw [hsub]
    have hlen1 : (Vec.mk (-1) 0).length = 1 :=
      Vec.length_eval (-1) 0 1 (by norm_num) (by norm_num)
    rw [if_neg (by rw [hlen1]; norm_num [cexBoidCohesion])]
  refine ⟨hempty, ?_, ?_, ?_⟩
  · have hloopv : cohesionLoop cexBoidCohesion [cexBoidCohesion] Vec.zero 0
        = (Vec.zero, 0) := by
      rw [cohesionLoop, if_neg hcond, cohesionLoop]
    rw [Boid.getCohesionVector, hloopv]
    simpa [hdes] using hsteer
  · intro hcontra
    have : (-1 : ℝ) = 0 := congrArg Vec.x hcontra
    norm_num at this
  · rw [Boid.getSteer, if_pos Vec.length_zero_val]

/-- Witness for claim C6: the lone far-sighted boid of the witness
configuration qualifies for its own cohesion scan (distance `0 <
followRadius`), and the cohesion force is the steer toward the average
qualifying position. -/
theorem getCohesionVector_characterization_witness :
    cohesionNeighbors witnessBoid [witnessBoid] ≠ [] ∧
      witnessBoid.getCohesionVector [witnessBoid] = witnessBoid.getSteer
        (((vecSum ((cohesionNeighbors witnessBoid [witnessBoid]).map
          Boid.position)).divide
          ((cohesionNeighbors witnessBoid [witnessBoid]).length : ℝ)).sub
          witnessBoid.position) := by
  have hdisp : witnessBoid.position.sub witnessBoid.position = Vec.zero := by
    simp [witnessBoid, Vec.sub, Vec.zero]
  have hcond : (witnessBoid.position.sub witnessBoid.position).length
      < witnessBoid.followRadius := by
    rw [hdisp, Vec.length_zero_val]
    norm_num [witnessBoid]
  have hne : cohesionNeighbors witnessBoid [witnessBoid] ≠ [] := by
    rw [cohesionNeighbors, if_pos hcond]
    simp
  exact ⟨hne, (getCohesionVector_characterization witnessBoid [witnessBoid]).1 hne⟩

lemma Boid.react_position (b : Boid) (l : List Boid) (obs : List Obstacle)
    (r : Vec) : (b.react l obs r).position = b.position := rfl

lemma Boid.react_maxSpeed (b : Boid) (l : List Boid) (obs : List Obstacle)
    (r : Vec) : (b.react l obs r).maxSpeed = b.maxSpeed := rfl

/-- The final clamp of `updateVelocity` bounds the reacted velocity by
`maxSpeed` whenever `maxSpeed` is nonnegative. -/
lemma Boid.react_velocity_bound (b : Boid) (l : List Boid) (obs : List Obstacle)
    (r : Vec) (h : 0 ≤ b.maxSpeed) :
    (b.react l obs r).velocity.length ≤ b.maxSpeed := by
  show (if (b.newVelocityRaw l obs r).length > b.maxSpeed then
      (b.newVelocityRaw l obs r).withLength b.maxSpeed
    else b.newVelocityRaw l obs r).length ≤ b.maxSpeed
  split_ifs with hc
  · have hne : (b.newVelocityRaw l obs r).length ≠ 0 := by
      intro h0
      rw [h0] at hc
      linarith
    rw [Vec.length_withLength _ _ hne h]
  · linarith

lemma getD_set_ne (l : List Boid) (i j : ℕ) (a : Boid) (hij : i ≠ j) :
    (l.set i a).getD j default = l.getD j default := by
  induction l generalizing i j with
  | nil => rfl
  | cons hd tl ih =>
      cases i with
      | zero =>
          cases j with
          | zero => exact absurd rfl hij
          | succ j => rfl
      | succ i =>
          cases j with
          | zero => rfl
          | succ j =>
              simp only [List.set, List.getD_cons_succ]
              exact ih i j (fun hc => hij (congrArg Nat.succ hc))

lemma getD_set_self (l : List Boid) (i : ℕ) (a : Boid) (hi : i < l.length) :
    (l.set i a).getD i default = a := by
  induction l generalizing i with
  | nil => exact absurd hi (by simp)
  | cons hd tl ih =>
      cases i with
      | zero => rfl
      | succ i =>
          simp only [List.set, List.getD_cons_succ]
          exact ih i (by simpa using hi)

lemma getD_mem (l : List Boid) (j : ℕ) (hj : j < l.length) :
    l.getD j default ∈ l := by
  induction l generalizing j with
  | nil => exact absurd hj (by simp)
  | cons hd tl ih =>
      cases j with
      | zero => exact List.mem_cons_self hd tl
      | succ j =>
          exact List.mem_cons_of_mem hd (ih j (by simpa using hj))

lemma mem_getD (l : List Boid) (a : Boid) (ha : a ∈ l) :
    ∃ j, j < l.length ∧ l.getD j default = a := by
  induction l with
  | nil => exact absurd ha (by simp)
  | cons hd tl ih =>
      rcases List.mem_cons.mp ha with heq | htl
      · exact ⟨0, by simp, heq.symm⟩
      · rcases ih htl with ⟨j, hj, hjeq⟩
        exact ⟨j + 1, by simpa using hj, hjeq⟩

lemma seqReactGo_length (obs : List Obstacle) (r : ℕ → Vec) :
    ∀ (k : ℕ) (l : List Boid) (i : ℕ),
      (seqReactGo obs r l i k).length = l.length := by
  intro k
  induction k with
  | zero => intro l i; rfl
  | succ k ih =>
      intro l i
      rw [seqReactGo, ih]
      simp

/-- Characterization of the react loop of `Runner.onFrame`: indices outside
the processed window keep their original boid, and every processed index `j`
holds the reacted version of the original boid at `j`, computed against some
intermediate list (the partially reacted state current at iteration `j`). -/
lemma seqReactGo_char (obs : List Obstacle) (r : ℕ → Vec) :
    ∀ (k : ℕ) (l : List Boid) (i : ℕ), i + k ≤ l.length →
      (∀ j, j < i ∨ i + k ≤ j →
        (seqReactGo obs r l i k).getD j default = l.getD j default) ∧
      (∀ j, i ≤ j → j < i + k → ∃ mid,
        (seqReactGo obs r l i k).getD j default
          = (l.getD j default).react mid obs (r j)) := by
  intro k
  induction k with
  | zero =>
      intro l i _
      exact ⟨fun j _ => rfl, fun j hij hji => absurd hji (by omega)⟩
  | succ k ih =>
      intro l i hik
      have hi : i < l.length := by omega
      have hlen2 : (l.set i ((l.getD i default).react l obs (r i))).length
          = l.length := by simp
      have hik2 : (i + 1) + k ≤
          (l.set i ((l.getD i default).react l obs (r i))).length := by
        rw [hlen2]; omega
      obtain ⟨hout, hin⟩ :=
        ih (l.set i ((l.getD i default).react l obs (r i))) (i + 1) hik2
      rw [seqReactGo]
      constructor
      · intro j hj
        have hj2 : j < i + 1 ∨ (i + 1) + k ≤ j := by omega
        rw [hout j hj2]
        exact getD_set_ne l i j _ (by omega)
      · intro j hij hji
        by_cases hji' : j = i
        · subst hji'
          refine ⟨l, ?_⟩
          rw [hout j (Or.inl (by omega))]
          exact getD_set_self l j _ hi
        · obtain ⟨mid, hmid⟩ := hin j (by omega) (by omega)
          refine ⟨mid, ?_⟩
          rw [hmid, getD_set_ne l i j _ (fun hc => hji' hc.symm)]

/-- Claim C1 (amended): the react phase never moves an agent — every
position read during the react loop is the pre-tick snapshot position.  (The
full two-phase equivalence claimed for velocities fails; see the
counterexample.) -/
theorem react_phase_preserves_positions (l : List Boid) (obs : List Obstacle)
    (rand : ℕ → Vec) :
    (seqReact l obs rand).length = l.length ∧
    ∀ j, ((seqReact l obs rand).getD j default).position
      = (l.getD j default).position := by
  obtain ⟨hout, hin⟩ := seqReactGo_char obs rand l.length l 0 (by omega)
  refine ⟨seqReactGo_length obs rand l.length l 0, fun j => ?_⟩
  by_cases hj : j < l.length
  · obtain ⟨mid, hmid⟩ := hin j (by omega) (by omega)
    rw [seqReact, hmid, Boid.react_position]
  · rw [seqReact, hout j (Or.inr (by omega))]

/-- Claim C2: immediately after a tick of `Runner.onFrame`, every agent's
velocity has length at most its `maxSpeed` (assumed nonnegative), whatever
the noise drawn this tick was — the clamp at the end of `updateVelocity`
enforces the bound and `update` leaves the velocity untouched. -/
theorem velocity_bounded_after_onFrame (l : List Boid) (obs : List Obstacle)
    (rand : ℕ → Vec) (w h : ℝ) (hms : ∀ b ∈ l, 0 ≤ b.maxSpeed) :
    ∀ b ∈ onFrame l obs rand w h, b.velocity.length ≤ b.maxSpeed := by
  intro b hb
  rcases List.mem_map.mp hb with ⟨b0, hb0, rfl⟩
  rw [Boid.update_velocity_eq, Boid.update_maxSpeed]
  obtain ⟨j, hj, hjeq⟩ := mem_getD _ b0 hb0
  rw [seqReact] at hj hjeq
  rw [seqReactGo_length obs rand l.length l 0] at hj
  obtain ⟨_, hin⟩ := seqReactGo_char obs rand l.length l 0 (by omega)
  obtain ⟨mid, hmid⟩ := hin j (by omega) (by omega)
  rw [← hjeq, hmid, Boid.react_maxSpeed]
  exact Boid.react_velocity_bound _ _ _ _
    (hms (l.getD j default) (getD_mem l j hj))

/-- Evaluation helper: bound a concrete vector's length by a nonnegative
scalar. -/
lemma length_le_eval (x y m : ℝ) (hm : 0 ≤ m) (h : x ^ 2 + y ^ 2 ≤ m * m) :
    (Vec.mk x y).length ≤ m := by
  unfold Vec.length
  calc Real.sqrt (x ^ 2 + y ^ 2) ≤ Real.sqrt (m * m) := Real.sqrt_le_sqrt h
    _ = m := Real.sqrt_mul_self hm

/-- Evaluation helper: `getSteer` on a nonzero desired vector whose steer
stays within `maxForce`. -/
lemma getSteer_eval_noclamp (b : Boid) (d : Vec) (hd : d.length ≠ 0)
    (hcl : ((d.withLength b.maxSpeed).sub b.velocity).length ≤ b.maxForce) :
    b.getSteer d = (d.withLength b.maxSpeed).sub b.velocity := by
  rw [Boid.getSteer, if_neg hd, if_neg (not_lt.mpr hcl)]

/-- Evaluation helper: the `length` setter on a concrete nonzero vector. -/
lemma withLength_eval (x y L len : ℝ) (hlen : (Vec.mk x y).length = len)
    (h0 : len ≠ 0) :
    (Vec.mk x y).withLength L = ⟨x * (L / len), y * (L / len)⟩ := by
  rw [Vec.withLength, hlen, if_neg h0, Vec.smul]

/-- With zero cohesion, avoidance and obstacle weights, the raw reacted
velocity is the old velocity plus the weighted follow force plus noise. -/
lemma newVelocityRaw_follow_only (b : Boid) (l : List Boid)
    (obs : List Obstacle) (r : Vec) (hc : b.weights.cohesion = 0)
    (ha : b.weights.avoidance = 0) (ho : b.weights.obstacles = 0) :
    b.newVelocityRaw l obs r =
      (b.velocity.add ((b.getFollowVector l).smul b.weights.following)).add
        ((r.sub ⟨0.5, 0.5⟩).smul (2 * 0.1)) := by
  rw [Boid.newVelocityRaw, hc, ha, ho, Vec.smul_zero_k, Vec.smul_zero_k,
    Vec.smul_zero_k, Vec.add_zero_vec, Vec.add_zero_vec, Vec.add_zero_vec]

/-- Evaluation helper: a full react step for a boid whose only active force
is the follow force. -/
lemma react_eval_follow_only (b : Boid) (l : List Boid) (obs : List Obstacle)
    (r : Vec) (hc : b.weights.cohesion = 0) (ha : b.weights.avoidance = 0)
    (ho : b.weights.obstacles = 0) (hf : b.weights.following = 1)
    (hn : (r.sub ⟨0.5, 0.5⟩).smul (2 * 0.1) = Vec.zero)
    (F v : Vec) (hF : b.getFollowVector l = F) (hv : b.velocity.add F = v)
    (hcl : ¬ v.length > b.maxSpeed) :
    b.react l obs r = { b with velocity := v } := by
  rw [Boid.react, Boid.updateVelocity,
    newVelocityRaw_follow_only b l obs r hc ha ho, hF, hf, Vec.smul_one, hn,
    Vec.add_zero_vec, hv, if_neg hcl]

/-- First boid of the two-phase counterexample: heading east. -/
def demoBoid0 : Boid :=
  { id := 0, position := ⟨0, 0⟩, velocity := ⟨1, 0⟩, rotation := 0, hue := 0,
    weights := ⟨0, 0, 1, 0⟩, followRadius := 10, avoidRadius := 3,
    maxSpeed := 5, maxForce := 10 }

/-- Second boid of the two-phase counterexample: heading north, one unit to
the east of the first. -/
def demoBoid1 : Boid :=
  { id := 1, position := ⟨1, 0⟩, velocity := ⟨0, 2⟩, rotation := 0, hue := 0,
    weights := ⟨0, 0, 1, 0⟩, followRadius := 10, avoidRadius := 3,
    maxSpeed := 5, maxForce := 10 }

/-- The random draw of the counterexample tick: the midpoint, making the
noise term exactly zero. -/
def demoRand : ℕ → Vec := fun _ => ⟨0.5, 0.5⟩

/-- The first counterexample boid after its react step. -/
def demoBoid0R : Boid := { demoBoid0 with velocity := ⟨0, 5⟩ }

/-- The second counterexample boid after a react step against the already
reacted first boid (the sequential schedule). -/
def demoBoid1Seq : Boid := { demoBoid1 with velocity := ⟨0, 5⟩ }

/-- The second counterexample boid after a react step against the pre-tick
snapshot (the two-phase reference). -/
def demoBoid1Par : Boid := { demoBoid1 with velocity := ⟨5, 0⟩ }

lemma demo_noise (i : ℕ) :
    ((demoRand i).sub ⟨0.5, 0.5⟩).smul (2 * 0.1) = Vec.zero := by
  show ((Vec.mk 0.5 0.5).sub ⟨0.5, 0.5⟩).smul (2 * 0.1) = Vec.zero
  simp [Vec.sub, Vec.smul, Vec.zero]

lemma demo_follow_b0 :
    demoBoid0.getFollowVector [demoBoid0, demoBoid1] = ⟨-1, 5⟩ := by
  have h1 : ¬ (demoBoid0.id ≠ demoBoid0.id ∧
      (demoBoid0.position.sub demoBoid0.position).length
        < demoBoid0.followRadius) := by
    simp
  have hd : demoBoid1.position.sub demoBoid0.position = ⟨1, 0⟩ := by
    simp [demoBoid0, demoBoid1, Vec.sub]
  have h2 : demoBoid1.id ≠ demoBoid0.id ∧
      (demoBoid1.position.sub demoBoid0.position).length
        < demoBoid0.followRadius := by
    refine ⟨by simp [demoBoid0, demoBoid1], ?_⟩
    rw [hd, Vec.length_eval 1 0 1 (by norm_num) (by norm_num)]
    norm_num [demoBoid0]
  rw [Boid.getFollowVector, followLoop, if_neg h1, followLoop, if_pos h2,
    followLoop]
  show demoBoid0.getSteer (Vec.zero.add demoBoid1.velocity) = _
  rw [Vec.zero_add_vec]
  show demoBoid0.getSteer ⟨0, 2⟩ = _
  have hlen : (Vec.mk 0 2).length = 2 :=
    Vec.length_eval 0 2 2 (by norm_num) (by norm_num)
  have hwl : (Vec.mk 0 2).withLength demoBoid0.maxSpeed = ⟨0, 5⟩ := by
    rw [withLength_eval 0 2 _ 2 hlen (by norm_num)]
    show Vec.mk (0 * (demoBoid0.maxSpeed / 2)) (2 * (demoBoid0.maxSpeed / 2))
      = Vec.mk 0 5
    norm_num [demoBoid0]
  have hsub : (Vec.mk 0 5).sub demoBoid0.velocity = ⟨-1, 5⟩ := by
    show (Vec.mk 0 5).sub ⟨1, 0⟩ = Vec.mk (-1) 5
    simp [Vec.sub]
  rw [getSteer_eval_noclamp demoBoid0 ⟨0, 2⟩ (by rw [hlen]; norm_num) ?hcl,
    hwl, hsub]
  case hcl =>
    rw [hwl, hsub]
    show (Vec.mk (-1) 5).length ≤ demoBoid0.maxForce
    have : (Vec.mk (-1) 5).length ≤ 10 :=
      length_le_eval (-1) 5 10 (by norm_num) (by norm_num)
    simpa [demoBoid0] using this

lemma demo_react_b0 (i : ℕ) :
    demoBoid0.react [demoBoid0, demoBoid1] [] (demoRand i) = demoBoid0R := by
  refine react_eval_follow_only demoBoid0 [demoBoid0, demoBoid1] [] (demoRand i)
    rfl rfl rfl rfl (demo_noise i) ⟨-1, 5⟩ ⟨0, 5⟩ demo_follow_b0 ?_ ?_
  · show (Vec.mk 1 0).add ⟨-1, 5⟩ = Vec.mk 0 5
    simp [Vec.add]
  · rw [Vec.length_eval 0 5 5 (by norm_num) (by norm_num)]
    norm_num [demoBoid0]

lemma demo_follow_b1_seq :
    demoBoid1.getFollowVector [demoBoid0R, demoBoid1] = ⟨0, 3⟩ := by
  have hd : demoBoid0R.position.sub demoBoid1.position = ⟨-1, 0⟩ := by
    show (Vec.mk 0 0).sub ⟨1, 0⟩ = Vec.mk (-1) 0
    simp [Vec.sub]
  have h1 : demoBoid0R.id ≠ demoBoid1.id ∧
      (demoBoid0R.position.sub demoBoid1.position).length
        < demoBoid1.followRadius := by
    refine ⟨by norm_num [demoBoid0R, demoBoid0, demoBoid1], ?_⟩
    rw [hd, Vec.length_eval (-1) 0 1 (by norm_num) (by norm_num)]
    norm_num [demoBoid1]
  have h2 : ¬ (demoBoid1.id ≠ demoBoid1.id ∧
      (demoBoid1.position.sub demoBoid1.position).length
        < demoBoid1.followRadius) := by
    simp
  rw [Boid.getFollowVector, followLoop, if_pos h1, followLoop, if_neg h2,
    followLoop]
  show demoBoid1.getSteer (Vec.zero.add demoBoid0R.velocity) = _
  rw [Vec.zero_add_vec]
  show demoBoid1.getSteer ⟨0, 5⟩ = _
  have hlen : (Vec.mk 0 5).length = 5 :=
    Vec.length_eval 0 5 5 (by norm_num) (by norm_num)
  have hwl : (Vec.mk 0 5).withLength demoBoid1.maxSpeed = ⟨0, 5⟩ := by
    rw [withLength_eval 0 5 _ 5 hlen (by norm_num)]
    show Vec.mk (0 * (demoBoid1.maxSpeed / 5)) (5 * (demoBoid1.maxSpeed / 5))
      = Vec.mk 0 5
    norm_num [demoBoid1]
  have hsub : (Vec.mk 0 5).sub demoBoid1.velocity = ⟨0, 3⟩ := by
    show (Vec.mk 0 5).sub ⟨0, 2⟩ = Vec.mk 0 3
    simp [Vec.sub]
    norm_num
  rw [getSteer_eval_noclamp demoBoid1 ⟨0, 5⟩ (by rw [hlen]; norm_num) ?hcl,
    hwl, hsub]
  case hcl =>
    rw [hwl, hsub]
    show (Vec.mk 0 3).length ≤ demoBoid1.maxForce
    have : (Vec.mk 0 3).length ≤ 10 :=
      length_le_eval 0 3 10 (by norm_num) (by norm_num)
    simpa [demoBoid1] using this

lemma demo_follow_b1_par :
    demoBoid1.getFollowVector [demoBoid0, demoBoid1] = ⟨5, -2⟩ := by
  have hd : demoBoid0.position.sub demoBoid1.position = ⟨-1, 0⟩ := by
    simp [demoBoid0, demoBoid1, Vec.sub]
  have h1 : demoBoid0.id ≠ demoBoid1.id ∧
      (demoBoid0.position.sub demoBoid1.position).length
        < demoBoid1.followRadius := by
    refine ⟨by simp [demoBoid0, demoBoid1], ?_⟩
    rw [hd, Vec.length_eval (-1) 0 1 (by norm_num) (by norm_num)]
    norm_num [demoBoid1]
  have h2 : ¬ (demoBoid1.id ≠ demoBoid1.id ∧
      (demoBoid1.position.sub demoBoid1.position).length
        < demoBoid1.followRadius) := by
    simp
  rw [Boid.getFollowVector, followLoop, if_pos h1, followLoop, if_neg h2,
    followLoop]
  show demoBoid1.getSteer (Vec.zero.add demoBoid0.velocity) = _
  rw [Vec.zero_add_vec]
  show demoBoid1.getSteer ⟨1, 0⟩ = _
  have hlen : (Vec.mk 1 0).length = 1 :=
    Vec.length_eval 1 0 1 (by norm_num) (by norm_num)
  have hwl : (Vec.mk 1 0).withLength demoBoid1.maxSpeed = ⟨5, 0⟩ := by
    rw [withLength_eval 1 0 _ 1 hlen (by norm_num)]
    show Vec.mk (1 * (demoBoid1.maxSpeed / 1)) (0 * (demoBoid1.maxSpeed / 1))
      = Vec.mk 5 0
    norm_num [demoBoid1]
  have hsub : (Vec.mk 5 0).sub demoBoid1.velocity = ⟨5, -2⟩ := by
    show (Vec.mk 5 0).sub ⟨0, 2⟩ = Vec.mk 5 (-2)
    simp [Vec.sub]
  rw [getSteer_eval_noclamp demoBoid1 ⟨1, 0⟩ (by rw [hlen]; norm_num) ?hcl,
    hwl, hsub]
  case hcl =>
    rw [hwl, hsub]
    show (Vec.mk 5 (-2)).length ≤ demoBoid1.maxForce
    have : (Vec.mk 5 (-2)).length ≤ 10 :=
      length_le_eval 5 (-2) 10 (by norm_num) (by norm_num)
    simpa [demoBoid1] using this

lemma demo_react_b1_seq (i : ℕ) :
    demoBoid1.react [demoBoid0R, demoBoid1] [] (demoRand i)
      = demoBoid1Seq := by
  refine react_eval_follow_only demoBoid1 _ [] (demoRand i)
    rfl rfl rfl rfl (demo_noise i) ⟨0, 3⟩ ⟨0, 5⟩ demo_follow_b1_seq ?_ ?_
  · show (Vec.mk 0 2).add ⟨0, 3⟩ = Vec.mk 0 5
    simp [Vec.add]
    norm_num
  · rw [Vec.length_eval 0 5 5 (by norm_num) (by norm_num)]
    norm_num [demoBoid1]

lemma demo_react_b1_par (i : ℕ) :
    demoBoid1.react [demoBoid0, demoBoid1] [] (demoRand i)
      = demoBoid1Par := by
  refine react_eval_follow_only demoBoid1 _ [] (demoRand i)
    rfl rfl rfl rfl (demo_noise i) ⟨5, -2⟩ ⟨5, 0⟩ demo_follow_b1_par ?_ ?_
  · show (Vec.mk 0 2).add ⟨5, -2⟩ = Vec.mk 5 0
    simp [Vec.add]
  · rw [Vec.length_eval 5 0 5 (by norm_num) (by norm_num)]
    norm_num [demoBoid1]

lemma demo_seq :
    seqReact [demoBoid0, demoBoid1] [] demoRand
      = [demoBoid0R, demoBoid1Seq] := by
  rw [seqReact]
  show seqReactGo [] demoRand [demoBoid0, demoBoid1] 0 (Nat.succ (Nat.succ 0))
    = _
  rw [seqReactGo]
  simp only [List.getD_cons_zero, List.set_cons_zero]
  rw [demo_react_b0 0, seqReactGo]
  simp only [List.getD_cons_succ, List.getD_cons_zero, List.set_cons_succ,
    List.set_cons_zero]
  rw [demo_react_b1_seq (0 + 1), seqReactGo]

lemma demo_par :
    parReact [demoBoid0, demoBoid1] [] demoRand
      = [demoBoid0R, demoBoid1Par] := by
  rw [parReact, parReactGo, parReactGo, parReactGo, demo_react_b0 0,
    demo_react_b1_par (0 + 1)]

/-- Claim C1 counterexample: the sequential per-agent tick does not match
the two-phase reference.  With two boids whose only active force is the
follow (velocity-alignment) force and zero noise, the second boid's react
reads the first boid's already-updated velocity in the sequential loop, and
ends the react phase with velocity `(0, 5)` instead of the `(5, 0)` computed
by the two-phase reference from the pre-tick snapshot. -/
theorem seq_tick_differs_from_two_phase :
    seqReact [demoBoid0, demoBoid1] [] demoRand
      ≠ parReact [demoBoid0, demoBoid1] [] demoRand := by
  rw [demo_seq, demo_par]
  intro hcontra
  have h2 := congrArg (fun l : List Boid => (l.getD 1 default).velocity.y)
    hcontra
  simp only [List.getD_cons_succ, List.getD_cons_zero] at h2
  have h5 : (5 : ℝ) = 0 := by
    have hl : demoBoid1Seq.velocity.y = 5 := rfl
    have hr : demoBoid1Par.velocity.y = 0 := rfl
    rw [hl, hr] at h2
    exact h2
  norm_num at h5

/-- Witness for claim C2: a concrete one-boid tick keeps the velocity within
the bound. -/
theorem velocity_bounded_after_onFrame_witness :
    (∀ b ∈ [witnessBoid], 0 ≤ b.maxSpeed) ∧
      ∀ b ∈ onFrame [witnessBoid] [] (fun _ => Vec.zero) 100 100,
        b.velocity.length ≤ b.maxSpeed := by
  have hms : ∀ b ∈ [witnessBoid], 0 ≤ b.maxSpeed := by
    intro b hb
    rw [List.mem_singleton.mp hb]
    norm_num [witnessBoid]
  exact ⟨hms,
    velocity_bounded_after_onFrame [witnessBoid] [] (fun _ => Vec.zero)
      100 100 hms⟩

/-- Evaluation helper: lower-bound a square root by a nonnegative real. -/
lemma le_sqrt_of_sq (a b : ℝ) (ha : 0 ≤ a) (h : a * a ≤ b) :
    a ≤ Real.sqrt b := by
  calc a = Real.sqrt (a * a) := (Real.sqrt_mul_self ha).symm
    _ ≤ Real.sqrt b := Real.sqrt_le_sqrt h

/-- If no obstacle in the list both hits and beats the current closest
distance, the obstacle loop leaves its accumulator unchanged. -/
lemma obstacleLoop_no_hit (b : Boid) :
    ∀ (l : List Obstacle) (cd : ℝ) (ov : Vec),
      (∀ o ∈ l, hits b o → ¬ obsDist b o < cd) →
      obstacleLoop b l cd ov = (cd, ov) := by
  intro l
  induction l with
  | nil => intro cd ov _; rfl
  | cons a rest ih =>
      intro cd ov hno
      rw [obstacleLoop]
      by_cases h1 : (b.perpOffset a).length < a.affectRadius
      · rw [if_pos h1,
          if_neg (show ¬ (a.position.sub b.position).length < cd from
            hno a (List.mem_cons_self a rest) h1)]
        exact ih cd ov (fun o2 h2 hh => hno o2 (List.mem_cons_of_mem a h2) hh)
      · rw [if_neg h1]
        exact ih cd ov (fun o2 h2 hh => hno o2 (List.mem_cons_of_mem a h2) hh)

/-- If `o` is a hitting obstacle strictly closer than the current closest
distance and strictly closer than every other hitting obstacle in the list,
the obstacle loop ends with `o`'s distance and negated perpendicular
offset. -/
lemma obstacleLoop_min_hit (b : Boid) :
    ∀ (l : List Obstacle) (cd : ℝ) (ov : Vec) (o : Obstacle),
      o ∈ l → hits b o → obsDist b o < cd →
      (∀ o2 ∈ l, hits b o2 → o2 ≠ o → obsDist b o < obsDist b o2) →
      obstacleLoop b l cd ov = (obsDist b o, (b.perpOffset o).smul (-1)) := by
  intro l
  induction l with
  | nil => intro cd ov o ho _ _ _; exact absurd ho (List.not_mem_nil o)
  | cons a rest ih =>
      intro cd ov o ho hh hcd hmin
      by_cases hao : a = o
      · subst hao
        rw [obstacleLoop,
          if_pos (show (b.perpOffset a).length < a.affectRadius from hh),
          if_pos (show (a.position.sub b.position).length < cd from hcd)]
        apply obstacleLoop_no_hit
        intro o2 h2 hh2
        by_cases ho2 : o2 = a
        · subst ho2
          exact lt_irrefl _
        · exact asymm (hmin o2 (List.mem_cons_of_mem a h2) hh2 ho2)
      · have ho' : o ∈ rest := by
          rcases List.mem_cons.mp ho with heq | htl
          · exact absurd heq.symm hao
          · exact htl
        have hrestmin : ∀ o2 ∈ rest, hits b o2 → o2 ≠ o →
            obsDist b o < obsDist b o2 :=
          fun o2 h2 hh2 hne => hmin o2 (List.mem_cons_of_mem a h2) hh2 hne
        rw [obstacleLoop]
        by_cases h1 : (b.perpOffset a).length < a.affectRadius
        · rw [if_pos h1]
          by_cases h2 : (a.position.sub b.position).length < cd
          · rw [if_pos h2]
            exact ih _ _ o ho' hh
              (hmin a (List.mem_cons_self a rest) h1 hao) hrestmin
          · rw [if_neg h2]
            exact ih cd ov o ho' hh hcd hrestmin
        · rw [if_neg h1]
          exact ih cd ov o ho' hh hcd hrestmin

lemma getObstacleVector_eval (b : Boid) (obs : List Obstacle) (cd : ℝ)
    (ov : Vec) (hl : obstacleLoop b obs 99999999999 Vec.zero = (cd, ov)) :
    b.getObstacleVector obs = if ov.length > 0 then ov.normalize else ov := by
  rw [Boid.getObstacleVector, hl]

/-- Claim C8 (amended): for an agent with nonzero velocity whose obstacles
all lie within the loop's sentinel distance `99999999999`, the obstacle force
is zero when no obstacle's perpendicular offset beats its affect radius, and
otherwise is the negated, normalized perpendicular offset of the unique
minimum-displacement-distance hitting obstacle; it is not fed through the
steering function.  (Without the sentinel bound the claim fails; see the
counterexample.) -/
theorem getObstacleVector_closest_hit (b : Boid) (obs : List Obstacle)
    (_hv : b.velocity ≠ Vec.zero)
    (hfar : ∀ o ∈ obs, obsDist b o < 99999999999) :
    ((∀ o ∈ obs, ¬ hits b o) → b.getObstacleVector obs = Vec.zero) ∧
    (∀ o ∈ obs, hits b o →
      (∀ o2 ∈ obs, hits b o2 → o2 ≠ o → obsDist b o < obsDist b o2) →
      b.getObstacleVector obs = ((b.perpOffset o).smul (-1)).normalize) := by
  constructor
  · intro hnone
    rw [getObstacleVector_eval b obs 99999999999 Vec.zero
      (obstacleLoop_no_hit b obs _ _
        (fun o ho hh => absurd hh (hnone o ho)))]
    rw [if_neg (by rw [Vec.length_zero_val]; norm_num)]
  · intro o ho hh hmin
    rw [getObstacleVector_eval b obs _ _
      (obstacleLoop_min_hit b obs _ Vec.zero o ho hh (hfar o ho) hmin)]
    by_cases hz : ((b.perpOffset o).smul (-1)).length > 0
    · rw [if_pos hz]
    · rw [if_neg hz]
      have h0 : ((b.perpOffset o).smul (-1)).length = 0 :=
        le_antisymm (not_lt.mp hz) (Vec.length_nonneg _)
      have hzv : (b.perpOffset o).smul (-1) = Vec.zero :=
        (Vec.length_eq_zero_iff _).mp h0
      rw [hzv, Vec.normalize, if_pos Vec.length_zero_val, Vec.smul_zero_k]

/-- The boid of the obstacle counterexample and witness: at the origin,
heading east. -/
def cexBoidObstacle : Boid :=
  { id := 0, position := ⟨0, 0⟩, velocity := ⟨1, 0⟩, rotation := 0, hue := 0,
    weights := ⟨0, 0, 0, 0⟩, followRadius := 10, avoidRadius := 3,
    maxSpeed := 5, maxForce := 10 }

/-- An obstacle one unit off the boid's line of travel but beyond the
sentinel distance `99999999999`. -/
def cexObstacleFar : Obstacle := ⟨⟨100000000000, 1⟩, 5⟩

lemma cex_velocity_length : cexBoidObstacle.velocity.length = 1 := by
  show (Vec.mk 1 0).length = 1
  exact Vec.length_eval 1 0 1 (by norm_num) (by norm_num)

lemma cex_velocity_ne : cexBoidObstacle.velocity ≠ Vec.zero := by
  intro hc
  have h1 : (1 : ℝ) = 0 := congrArg Vec.x hc
  norm_num at h1

lemma cex_perp_far : cexBoidObstacle.perpOffset cexObstacleFar = ⟨0, 1⟩ := by
  rw [Boid.perpOffset, cex_velocity_length]
  show (Vec.mk (100000000000 - 0) (1 - 0)).sub ((Vec.mk 1 0).smul
    (((Vec.mk (100000000000 - 0) (1 - 0)).dot ⟨1, 0⟩) / (1 * 1))) = Vec.mk 0 1
  norm_num [Vec.dot, Vec.smul, Vec.sub]

/-- Claim C8 counterexample: the obstacle loop's closest-distance accumulator
starts at `99999999999`, so a qualifying obstacle at displacement distance at
least that sentinel is never selected: the code returns the zero force, while
the claim requires the negated normalized perpendicular offset `(0, -1)` of
that (unique, hence minimum-distance) qualifying obstacle. -/
theorem obstacle_sentinel_distance_cex :
    cexBoidObstacle.velocity ≠ Vec.zero ∧
    hits cexBoidObstacle cexObstacleFar ∧
    cexBoidObstacle.getObstacleVector [cexObstacleFar] = Vec.zero ∧
    ((cexBoidObstacle.perpOffset cexObstacleFar).smul (-1)).normalize
      = ⟨0, -1⟩ ∧
    (⟨0, -1⟩ : Vec) ≠ Vec.zero := by
  have hhit : hits cexBoidObstacle cexObstacleFar := by
    rw [hits, cex_perp_far, Vec.length_eval 0 1 1 (by norm_num) (by norm_num)]
    show (1 : ℝ) < cexObstacleFar.affectRadius
    norm_num [cexObstacleFar]
  have hdist : ¬ (cexObstacleFar.position.sub cexBoidObstacle.position).length
      < 99999999999 := by
    show ¬ (Vec.mk (100000000000 - 0) (1 - 0)).length < 99999999999
    rw [not_lt]
    unfold Vec.length
    apply le_sqrt_of_sq
    · norm_num
    · norm_num
  refine ⟨cex_velocity_ne, hhit, ?_, ?_, ?_⟩
  · have hloop : obstacleLoop cexBoidObstacle [cexObstacleFar] 99999999999
        Vec.zero = (99999999999, Vec.zero) := by
      rw [obstacleLoop,
        if_pos (show (cexBoidObstacle.perpOffset cexObstacleFar).length
          < cexObstacleFar.affectRadius from hhit),
        if_neg hdist, obstacleLoop]
    rw [getObstacleVector_eval _ _ _ _ hloop]
    rw [if_neg (by rw [Vec.length_zero_val]; norm_num)]
  · rw [cex_perp_far]
    show ((Vec.mk 0 1).smul (-1)).normalize = Vec.mk 0 (-1)
    have hs : (Vec.mk 0 1).smul (-1) = ⟨0, -1⟩ := by
      simp [Vec.smul]
    have hlen1 : (Vec.mk 0 (-1)).length = 1 :=
      Vec.length_eval 0 (-1) 1 (by norm_num) (by norm_num)
    rw [hs, Vec.normalize, if_neg (by rw [hlen1]; norm_num), hlen1]
    show Vec.mk (0 * (1 / 1)) ((-1) * (1 / 1)) = Vec.mk 0 (-1)
    norm_num
  · intro hc
    have h1 : (-1 : ℝ) = 0 := congrArg Vec.y hc
    norm_num at h1

/-- An obstacle one unit off the boid's line of travel, well within the
sentinel distance. -/
def cexObstacleNear : Obstacle := ⟨⟨3, 1⟩, 2⟩

lemma cex_perp_near : cexBoidObstacle.perpOffset cexObstacleNear = ⟨0, 1⟩ := by
  rw [Boid.perpOffset, cex_velocity_length]
  show (Vec.mk (3 - 0) (1 - 0)).sub ((Vec.mk 1 0).smul
    (((Vec.mk (3 - 0) (1 - 0)).dot ⟨1, 0⟩) / (1 * 1))) = Vec.mk 0 1
  norm_num [Vec.dot, Vec.smul, Vec.sub]

/-- Witness for claim C8: a single nearby obstacle one unit off the line of
travel with affect radius two deflects the boid with the unit force
`(0, -1)`. -/
theorem getObstacleVector_closest_hit_witness :
    cexBoidObstacle.velocity ≠ Vec.zero ∧
    hits cexBoidObstacle cexObstacleNear ∧
    cexBoidObstacle.getObstacleVector [cexObstacleNear] = ⟨0, -1⟩ := by
  have hhit : hits cexBoidObstacle cexObstacleNear := by
    rw [hits, cex_perp_near, Vec.length_eval 0 1 1 (by norm_num) (by norm_num)]
    show (1 : ℝ) < cexObstacleNear.affectRadius
    norm_num [cexObstacleNear]
  have hfar : ∀ o ∈ [cexObstacleNear],
      obsDist cexBoidObstacle o < 99999999999 := by
    intro o hmem
    rw [List.mem_singleton.mp hmem, obsDist]
    show (Vec.mk (3 - 0) (1 - 0)).length < 99999999999
    have h4 : (Vec.mk (3 - 0) (1 - 0)).length ≤ 4 := by
      norm_num
      exact length_le_eval 3 1 4 (by norm_num) (by norm_num)
    calc (Vec.mk (3 - 0) (1 - 0)).length ≤ 4 := h4
      _ < 99999999999 := by norm_num
  have hmin : ∀ o2 ∈ [cexObstacleNear], hits cexBoidObstacle o2 →
      o2 ≠ cexObstacleNear →
      obsDist cexBoidObstacle cexObstacleNear
        < obsDist cexBoidObstacle o2 := by
    intro o2 hmem _ hne
    exact absurd (List.mem_singleton.mp hmem) hne
  have happ := (getObstacleVector_closest_hit cexBoidObstacle [cexObstacleNear]
    cex_velocity_ne hfar).2 cexObstacleNear
    (List.mem_singleton.mpr rfl) hhit hmin
  refine ⟨cex_velocity_ne, hhit, ?_⟩
  rw [happ, cex_perp_near]
  show ((Vec.mk 0 1).smul (-1)).normalize = Vec.mk 0 (-1)
  have hs : (Vec.mk 0 1).smul (-1) = ⟨0, -1⟩ := by
    simp [Vec.smul]
  have hlen1 : (Vec.mk 0 (-1)).length = 1 :=
    Vec.length_eval 0 (-1) 1 (by norm_num) (by norm_num)
  rw [hs, Vec.normalize, if_neg (by rw [hlen1]; norm_num), hlen1]
  show Vec.mk (0 * (1 / 1)) ((-1) * (1 / 1)) = Vec.mk 0 (-1)
  norm_num

end

end Boids
